import Mathlib

/-!
Shallow embedding of the annotation-tool backend's Room Store
(`app/services/disentanglement.py` with the models in
`app/models/disentanglement.py`).

Modelling conventions:
- `datetime` values are abstracted as `Nat` ticks; `datetime.now()` becomes an
  explicit `now : Nat` argument to each operation that reads the clock.
- The Python `dict` keeping the rooms, and the store directory on disk, are
  modelled as association lists (`List (String × _)`) with Python-dict
  insertion/replacement semantics.
- Reading an import source from disk is modelled by passing the parsed file
  content (`SourceData`) alongside the path string; the path string is still
  used for the room id (`Path(file_path).stem`) and for the "Imported from"
  notes, exactly as in the code.
- `HTTPException(404, d)` is modelled as the error value `.notFound d`;
  failures of `csv`/`json` parsing (KeyError and friends) as `.parseError`.
-/

namespace AnnTool

/-- `DisentangledTurn` from `app/models/disentanglement.py`. -/
structure DisentangledTurn where
  user_id : String
  turn_id : String
  turn_text : String
  reply_to_turn : Option String := none
  thread_id : Option String := none
  annotator_id : Option String := none
  annotation_timestamp : Option Nat := none
  annotation_notes : Option String := none
deriving DecidableEq

/-- `DisentanglementChatRoom` from `app/models/disentanglement.py`. -/
structure DisentanglementChatRoom where
  room_id : String
  turns : List DisentangledTurn
deriving DecidableEq

/-- Content of one written file: a room serialized as JSON
(`json.dump(room.dict(), ...)`, used both by `_save_room` and the JSON export),
or a CSV file with a header row and data rows (the CSV export). -/
inductive FileData where
  | jsonRoom (room : DisentanglementChatRoom)
  | csvFile (header : List String) (rows : List (List String))
deriving DecidableEq

/-- Parsed content of an import source: a CSV file (header names plus one
association list of column-name/value per row, as produced by
`csv.DictReader`), or a JSON document's `turns` array (each element already
run through `DisentangledTurn.parse_obj`). -/
inductive SourceData where
  | csvData (headers : List String) (rows : List (List (String × String)))
  | jsonData (turns : List DisentangledTurn)
deriving DecidableEq

/-- Typed failures of the service operations. -/
inductive ServiceError where
  | notFound (detail : String)
  | parseError
deriving DecidableEq

/-- In-memory mapping `self.disentanglement_rooms` plus the files on disk
(path ↦ content), covering `data/chatrooms` and any export destinations. -/
structure ServiceState where
  rooms : List (String × DisentanglementChatRoom)
  files : List (String × FileData)
deriving DecidableEq

/-- Python `dict` lookup on an association list. -/
def dictGet {α : Type _} (k : String) : List (String × α) → Option α
  | [] => none
  | p :: rest => if p.1 = k then some p.2 else dictGet k rest

/-- Python `dict` assignment: replace in place when the key is present
(Python dicts keep the original position), append otherwise. -/
def dictInsert {α : Type _} (k : String) (v : α) : List (String × α) → List (String × α)
  | [] => [(k, v)]
  | p :: rest => if p.1 = k then (k, v) :: rest else p :: dictInsert k v rest

/-- Python `del dict[k]` / file removal. -/
def dictErase {α : Type _} (k : String) : List (String × α) → List (String × α) :=
  List.filter (fun p => p.1 ≠ k)

/-- Whitespace stripped by Python's `str.strip()` (ASCII range). -/
def pyWS (c : Char) : Bool :=
  c = ' ' || c = '\t' || c = '\n' || c = '\r' || c = Char.ofNat 11 || c = Char.ofNat 12

/-- Python `str.strip()` (character-level model). -/
def pyStrip (s : String) : String :=
  String.mk ((s.toList.dropWhile pyWS).reverse.dropWhile pyWS).reverse

/-- Python `str.lower()` on one character (ASCII range, which covers every
comparison the code performs). -/
def pyLowerChar (c : Char) : Char :=
  if 'A' ≤ c ∧ c ≤ 'Z' then Char.ofNat (c.toNat + 32) else c

/-- Python `str.lower()` (character-level model). -/
def pyLower (s : String) : String :=
  String.mk (s.toList.map pyLowerChar)

/-- Final component of a POSIX path (`Path(p).name`). -/
def lastComponent (s : String) : List Char :=
  (s.toList.reverse.takeWhile (fun c => c ≠ '/')).reverse

/-- `Path(p).stem`: final path component without its suffix, where the suffix
is `name[i:]` for the last dot index `i` with `0 < i < len(name) - 1`. -/
def pathStem (p : String) : String :=
  let cs := lastComponent p
  match ((List.range cs.length).reverse.find? (fun i => cs.getD i ' ' = '.')) with
  | some i => if 0 < i ∧ i < cs.length - 1 then String.mk (cs.take i) else String.mk cs
  | none => String.mk cs

/-- Path of a room's backing file, `self.data_dir / f"{room_id}.json"`. -/
def roomFilePath (room_id : String) : String :=
  "data/chatrooms/" ++ room_id ++ ".json"

/-- `_save_room`: write the room's JSON file into the store directory. -/
def saveRoom (room : DisentanglementChatRoom) (files : List (String × FileData)) :
    List (String × FileData) :=
  dictInsert (roomFilePath room.room_id) (.jsonRoom room) files

/-- Python truthiness of an optional string: `None` and `""` are falsy. -/
def strOptTruthy : Option String → Bool
  | none => false
  | some s => !(s == "")

/-- Python `a or b` for an optional string `a` and default `b`
(`None` and `""` both fall through to the default). -/
def pyOrStr (a : Option String) (b : String) : Option String :=
  match a with
  | some s => if s = "" then some b else some s
  | none => some b

/-- Python `a or b` for an optional datetime `a` (datetimes are always
truthy) and default `b`. -/
def pyOrTime (a : Option Nat) (b : Nat) : Option Nat :=
  match a with
  | some t => some t
  | none => some b

/-- The probed thread-column names, in order. -/
def thread_column_variants : List String :=
  ["thread_id", "thread", "thread_num", "thread_number"]

/-- First probed variant present among the CSV headers. -/
def findThreadColumn (headers : List String) : Option String :=
  thread_column_variants.find? (fun v => headers.contains v)

/-- Extraction of `existing_thread` from one CSV row: the detected column's
value must be truthy (present and non-empty); it is then stripped, and
discarded when its lowercase form is `""`, `"none"` or `"null"`. -/
def rowThread (thread_column : Option String) (row : List (String × String)) :
    Option String :=
  match thread_column with
  | none => none
  | some col =>
    match dictGet col row with
    | none => none
    | some v =>
      if v = "" then none
      else
        let s := pyStrip v
        if pyLower s = "" ∨ pyLower s = "none" ∨ pyLower s = "null" then none
        else some s

/-- Building one `DisentangledTurn` from a CSV row; `none` models the
`KeyError` on a missing required column. -/
def csvRowToTurn (file_path : String) (now : Nat) (thread_column : Option String)
    (row : List (String × String)) : Option DisentangledTurn :=
  match dictGet "user_id" row, dictGet "turn_id" row, dictGet "turn_text" row with
  | some u, some ti, some tx =>
    let existing_thread := rowThread thread_column row
    some { user_id := u
           turn_id := ti
           turn_text := tx
           reply_to_turn := dictGet "reply_to_turn" row
           thread_id := existing_thread
           annotator_id := if existing_thread.isSome then some "imported" else none
           annotation_timestamp := if existing_thread.isSome then some now else none
           annotation_notes :=
             if existing_thread.isSome then some ("Imported from " ++ file_path) else none }
  | _, _, _ => none

/-- All CSV rows of a source, failing on the first bad row. -/
def csvTurns (file_path : String) (now : Nat) (thread_column : Option String) :
    List (List (String × String)) → Option (List DisentangledTurn)
  | [] => some []
  | row :: rest =>
    match csvRowToTurn file_path now thread_column row,
          csvTurns file_path now thread_column rest with
    | some t, some ts => some (t :: ts)
    | _, _ => none

/-- The JSON import path's per-turn fix-up: when `thread_id` is truthy, fill
each falsy annotation-metadata field with its default. -/
def jsonTurnImport (file_path : String) (now : Nat) (turn : DisentangledTurn) :
    DisentangledTurn :=
  if strOptTruthy turn.thread_id then
    { turn with
      annotator_id := pyOrStr turn.annotator_id "imported"
      annotation_timestamp := pyOrTime turn.annotation_timestamp now
      annotation_notes := pyOrStr turn.annotation_notes ("Imported from " ++ file_path) }
  else turn

/-- Result record of `import_chatroom`. -/
structure ImportResult where
  message : String
  total_turns : Nat
  pre_annotated_turns : Nat
deriving DecidableEq

/-- The turn-list computation of `import_chatroom`: the `if format == "csv"`
branch runs the CSV reader loop, the `else` branch covers every other format
value and runs the JSON path. -/
def importTurns (file_path format : String) (src : SourceData) (now : Nat) :
    Except ServiceError (List DisentangledTurn) :=
  if format = "csv" then
    match src with
    | .csvData headers rows =>
      match csvTurns file_path now (findThreadColumn headers) rows with
      | some ts => .ok ts
      | none => .error .parseError
    | _ => .error .parseError
  else
    match src with
    | .jsonData ts => .ok (ts.map (jsonTurnImport file_path now))
    | _ => .error .parseError

/-- `import_chatroom`: build the turn list from the source, derive the room id
from the path stem, insert/replace the room in the mapping, save it, and
report counts. -/
def importChatroom (st : ServiceState) (file_path : String) (format : String)
    (src : SourceData) (now : Nat) : Except ServiceError (ServiceState × ImportResult) :=
  match importTurns file_path format src now with
  | .error e => .error e
  | .ok turns =>
    let room_id := pathStem file_path
    let room : DisentanglementChatRoom := { room_id := room_id, turns := turns }
    .ok ({ rooms := dictInsert room_id room st.rooms
           files := saveRoom room st.files },
         { message := "Successfully imported chat room " ++ room_id
           total_turns := turns.length
           pre_annotated_turns := turns.countP (fun t => t.thread_id.isSome) })

/-- The fixed CSV export column order. -/
def csvFieldOrder : List String :=
  ["user_id", "turn_id", "turn_text", "reply_to_turn",
   "thread_id", "annotator_id", "annotation_timestamp", "annotation_notes"]

/-- Rendering an optional string for CSV output (`None` becomes empty). -/
def renderOptStr : Option String → String
  | none => ""
  | some s => s

/-- Rendering an optional timestamp for CSV output. -/
def renderOptTime : Option Nat → String
  | none => ""
  | some n => toString n

/-- One turn as a CSV row in the fixed column order. -/
def turnToCsvRow (t : DisentangledTurn) : List String :=
  [t.user_id, t.turn_id, t.turn_text, renderOptStr t.reply_to_turn,
   renderOptStr t.thread_id, renderOptStr t.annotator_id,
   renderOptTime t.annotation_timestamp, renderOptStr t.annotation_notes]

/-- `export_chatroom`: look up the room, resolve the destination (default
`<store-dir>/export_<room_id>.<format>`), write the CSV or JSON file, and
return the destination path. -/
def exportChatroom (st : ServiceState) (room_id : String) (format : String)
    (output_path : Option String) : Except ServiceError (ServiceState × String) :=
  match dictGet room_id st.rooms with
  | none => .error (.notFound "Chat room not found")
  | some room =>
    let path :=
      match output_path with
      | some p => p
      | none => "data/chatrooms/export_" ++ room_id ++ "." ++ format
    let content : FileData :=
      if format = "csv" then .csvFile csvFieldOrder (room.turns.map turnToCsvRow)
      else .jsonRoom room
    .ok ({ st with files := dictInsert path content st.files }, path)

/-- `get_chatroom`. -/
def getChatroom (st : ServiceState) (room_id : String) :
    Except ServiceError DisentanglementChatRoom :=
  match dictGet room_id st.rooms with
  | none => .error (.notFound "Chat room not found")
  | some room => .ok room

/-- The `for turn in chat_room.turns` loop of `annotate_turn`: update the
first turn with a matching id, `none` when no turn matches. -/
def annotateFirst (turn_id annotator_id : String) (thread_id notes : Option String)
    (now : Nat) : List DisentangledTurn → Option (List DisentangledTurn)
  | [] => none
  | t :: rest =>
    if t.turn_id = turn_id then
      some ({ t with
              thread_id := thread_id
              annotator_id := some annotator_id
              annotation_timestamp := some now
              annotation_notes := notes } :: rest)
    else
      match annotateFirst turn_id annotator_id thread_id notes now rest with
      | some rest2 => some (t :: rest2)
      | none => none

/-- `annotate_turn`: on the first matching turn, overwrite all four annotation
fields, save the room, and return the new timestamp. -/
def annotateTurn (st : ServiceState) (room_id turn_id annotator_id : String)
    (thread_id annotation_notes : Option String) (now : Nat) :
    Except ServiceError (ServiceState × Nat) :=
  match dictGet room_id st.rooms with
  | none => .error (.notFound "Chat room not found")
  | some room =>
    match annotateFirst turn_id annotator_id thread_id annotation_notes now room.turns with
    | some turns2 =>
      let room2 : DisentanglementChatRoom := { room with turns := turns2 }
      .ok ({ rooms := dictInsert room_id room2 st.rooms
             files := saveRoom room2 st.files }, now)
    | none => .error (.notFound "Turn not found")

/-- Appending a turn id to its thread's group in the summary dict. -/
def addToGroup (k v : String) : List (String × List String) → List (String × List String)
  | [] => [(k, [v])]
  | p :: rest => if p.1 = k then (p.1, p.2 ++ [v]) :: rest else p :: addToGroup k v rest

/-- The grouping loop of `get_thread_summary`, threading the accumulator dict:
only truthy `thread_id`s contribute. -/
def buildThreadsAux (acc : List (String × List String)) :
    List DisentangledTurn → List (String × List String)
  | [] => acc
  | t :: rest =>
    if strOptTruthy t.thread_id then
      buildThreadsAux (addToGroup (t.thread_id.getD "") t.turn_id acc) rest
    else
      buildThreadsAux acc rest

/-- The grouping computed by `get_thread_summary`. -/
def buildThreads (turns : List DisentangledTurn) : List (String × List String) :=
  buildThreadsAux [] turns

/-- Result record of `get_thread_summary`. -/
structure ThreadSummary where
  room_id : String
  thread_count : Nat
  threads : List (String × List String)
deriving DecidableEq

/-- `get_thread_summary`. -/
def getThreadSummary (st : ServiceState) (room_id : String) :
    Except ServiceError ThreadSummary :=
  match dictGet room_id st.rooms with
  | none => .error (.notFound "Chat room not found")
  | some room =>
    let threads := buildThreads room.turns
    .ok { room_id := room_id, thread_count := threads.length, threads := threads }

/-- Per-room record of `list_chatrooms`. -/
structure RoomSummary where
  room_id : String
  turn_count : Nat
  annotated_turns : Nat
  thread_count : Nat
deriving DecidableEq

/-- One room's summary in `list_chatrooms`: the thread count is the number of
distinct non-`None` thread ids (empty strings included). -/
def roomSummary (room_id : String) (room : DisentanglementChatRoom) : RoomSummary :=
  { room_id := room_id
    turn_count := room.turns.length
    annotated_turns := (room.turns.filter (fun t => t.thread_id.isSome)).length
    thread_count := ((room.turns.filterMap (fun t => t.thread_id)).dedup).length }

/-- `list_chatrooms`. -/
def listChatrooms (st : ServiceState) : List RoomSummary :=
  st.rooms.map (fun p => roomSummary p.1 p.2)

/-- `delete_chatroom`: not-found when absent; otherwise remove from the
mapping and remove the backing file (removing an absent file is a no-op). -/
def deleteChatroom (st : ServiceState) (room_id : String) :
    Except ServiceError ServiceState :=
  match dictGet room_id st.rooms with
  | none => .error (.notFound "Chat room not found")
  | some _ =>
    .ok { rooms := dictErase room_id st.rooms
          files := dictErase (roomFilePath room_id) st.files }

/-- The mutating operations, for reasoning about reachable store states. -/
inductive Op where
  | importOp (file_path format : String) (src : SourceData) (now : Nat)
  | annotateOp (room_id turn_id annotator_id : String)
      (thread_id notes : Option String) (now : Nat)
  | deleteOp (room_id : String)
deriving DecidableEq

/-- One operation applied to the store; a failed operation leaves the state
unchanged (every failure in the code is raised before any mutation). -/
def stepOp (st : ServiceState) : Op → ServiceState
  | .importOp p f s n =>
    match importChatroom st p f s n with
    | .ok (st2, _) => st2
    | .error _ => st
  | .annotateOp r t a th no n =>
    match annotateTurn st r t a th no n with
    | .ok (st2, _) => st2
    | .error _ => st
  | .deleteOp r =>
    match deleteChatroom st r with
    | .ok st2 => st2
    | .error _ => st

/-- Running a sequence of operations. -/
def runOps (st : ServiceState) (ops : List Op) : ServiceState :=
  ops.foldl stepOp st

/-- The store before any operation: empty directory, empty mapping. -/
def emptyState : ServiceState := { rooms := [], files := [] }

/-! ## Concrete instances used by witnesses and counterexamples -/

/-- Concrete turn with no annotation data at all. -/
def plainTurn : DisentangledTurn :=
  { user_id := "u", turn_id := "t1", turn_text := "x" }

/-- Concrete witness room with one turn. -/
def roomOne : DisentanglementChatRoom := { room_id := "r", turns := [plainTurn] }

/-- Concrete witness store: room `r`, empty directory. -/
def stRoomOnly : ServiceState := { rooms := [("r", roomOne)], files := [] }

/-- Concrete witness store: room `r` with its backing file present. -/
def stRoomAndFile : ServiceState :=
  { rooms := [("r", roomOne)]
    files := [("data/chatrooms/r.json", .jsonRoom roomOne)] }

/-- Concrete witness store: one room `f` with two turns, no files. -/
def stTwoTurns : ServiceState :=
  { rooms := [("f", { room_id := "f", turns := [plainTurn, plainTurn] })], files := [] }

/-- Concrete witness store: the state after re-importing `d/f.json`. -/
def stAfterImport : ServiceState :=
  { rooms := [("f", { room_id := "f", turns := [plainTurn] })]
    files := [("data/chatrooms/f.json",
      .jsonRoom { room_id := "f", turns := [plainTurn] })] }

/-- Concrete witness import summary. -/
def resImportF : ImportResult :=
  { message := "Successfully imported chat room f", total_turns := 1,
    pre_annotated_turns := 0 }

/-- A turn annotated with a thread but with no notes (the state `annotate`
leaves behind when called without notes). -/
def annTurn : DisentangledTurn :=
  { user_id := "u", turn_id := "t1", turn_text := "x", thread_id := some "T",
    annotator_id := some "a", annotation_timestamp := some 5 }

/-- `annTurn` after a JSON re-import from `out/r1.json`: the absent notes get
filled in. -/
def annTurnFilled : DisentangledTurn :=
  { annTurn with annotation_notes := some "Imported from out/r1.json" }

/-- Room `r1` holding `annTurn`. -/
def roomAnn : DisentanglementChatRoom := { room_id := "r1", turns := [annTurn] }

/-- Room `r1` holding `annTurnFilled`. -/
def roomAnnFilled : DisentanglementChatRoom :=
  { room_id := "r1", turns := [annTurnFilled] }

/-- Store holding `roomAnn` with an empty directory. -/
def stAnn : ServiceState := { rooms := [("r1", roomAnn)], files := [] }

/-- `stAnn` after exporting `r1` as JSON to `out/r1.json`. -/
def stAnnExported : ServiceState :=
  { rooms := [("r1", roomAnn)], files := [("out/r1.json", .jsonRoom roomAnn)] }

/-- `stAnnExported` after importing `out/r1.json` back: the stored turn now
carries the filled-in notes. -/
def stAnnImported : ServiceState :=
  { rooms := [("r1", roomAnnFilled)]
    files := [("out/r1.json", .jsonRoom roomAnn),
      ("data/chatrooms/r1.json", .jsonRoom roomAnnFilled)] }

/-- Headers of the concrete CSV import sources. -/
def headersCsv : List String := ["user_id", "turn_id", "turn_text", "thread_id"]

/-- CSV row whose thread column holds a lone blank. -/
def rowWS : List (String × String) :=
  [("user_id", "u"), ("turn_id", "t1"), ("turn_text", "h"), ("thread_id", " ")]

/-- CSV row whose thread column holds `" T1 "`. -/
def rowT1 : List (String × String) :=
  [("user_id", "u"), ("turn_id", "t1"), ("turn_text", "h"), ("thread_id", " T1 ")]

/-- The turn produced from `rowWS`: no annotation data. -/
def turnRowH : DisentangledTurn := { user_id := "u", turn_id := "t1", turn_text := "h" }

/-- The turn produced from `rowT1` at time 7. -/
def turnT1 : DisentangledTurn :=
  { user_id := "u", turn_id := "t1", turn_text := "h", thread_id := some "T1",
    annotator_id := some "imported", annotation_timestamp := some 7,
    annotation_notes := some "Imported from d/r.csv" }

/-- Room produced by importing `[rowWS]` from `d/r.csv`. -/
def roomRowH : DisentanglementChatRoom := { room_id := "r", turns := [turnRowH] }

/-- Store after importing `[rowWS]` from `d/r.csv` into the empty store. -/
def stCsvWS : ServiceState :=
  { rooms := [("r", roomRowH)]
    files := [("data/chatrooms/r.json", .jsonRoom roomRowH)] }

/-- Room produced by importing `[rowT1, rowWS]` from `d/r.csv` at time 7. -/
def roomCsvT1 : DisentanglementChatRoom := { room_id := "r", turns := [turnT1, turnRowH] }

/-- Store after importing `[rowT1, rowWS]` from `d/r.csv` into the empty
store. -/
def stCsvT1 : ServiceState :=
  { rooms := [("r", roomCsvT1)]
    files := [("data/chatrooms/r.json", .jsonRoom roomCsvT1)] }

/-- A turn survives the JSON export/import round trip unchanged exactly when
a truthy `thread_id` comes with truthy `annotator_id`, a timestamp, and
truthy `annotation_notes` (otherwise the import fills the falsy ones in). -/
def turnRoundTrips (t : DisentangledTurn) : Bool :=
  !(strOptTruthy t.thread_id) ||
    (strOptTruthy t.annotator_id && t.annotation_timestamp.isSome &&
      strOptTruthy t.annotation_notes)

/-- The turn ids of the turns assigned to thread `s`, in room order: the
reference description of one summary group. -/
def threadGroup (s : String) (turns : List DisentangledTurn) : List String :=
  (turns.filter (fun t => t.thread_id = some s)).map (fun t => t.turn_id)

/-- Modelled from the claim's words ("groups turn_ids by thread_id, ignoring
turns with no thread assignment"): the grouping that skips only turns whose
`thread_id` is `None`, so an empty-string thread id forms a group. Used only
to compare the claim's description against `buildThreads`. -/
def buildThreadsClaimAux (acc : List (String × List String)) :
    List DisentangledTurn → List (String × List String)
  | [] => acc
  | t :: rest =>
    match t.thread_id with
    | some s => buildThreadsClaimAux (addToGroup s t.turn_id acc) rest
    | none => buildThreadsClaimAux acc rest

/-- The whole grouping described by the claim. -/
def buildThreadsClaim (turns : List DisentangledTurn) : List (String × List String) :=
  buildThreadsClaimAux [] turns

/-- A turn whose thread id is the empty string. -/
def turnEmptyThread : DisentangledTurn :=
  { user_id := "u", turn_id := "t1", turn_text := "x", thread_id := some "" }

/-- Room holding only `turnEmptyThread`. -/
def roomEmptyThread : DisentanglementChatRoom :=
  { room_id := "r", turns := [turnEmptyThread] }

/-- Store holding `roomEmptyThread`. -/
def stEmptyThread : ServiceState := { rooms := [("r", roomEmptyThread)], files := [] }

/-- The spec example's turn list: threads A, B, A, and one unassigned turn. -/
def turnsABA : List DisentangledTurn :=
  [{ user_id := "u", turn_id := "t1", turn_text := "x", thread_id := some "A" },
   { user_id := "u", turn_id := "t2", turn_text := "x", thread_id := some "B" },
   { user_id := "u", turn_id := "t3", turn_text := "x", thread_id := some "A" },
   { user_id := "u", turn_id := "t4", turn_text := "x" }]

/-- Room holding `turnsABA`. -/
def roomABA : DisentanglementChatRoom := { room_id := "r", turns := turnsABA }

/-- Store holding `roomABA`. -/
def stABA : ServiceState := { rooms := [("r", roomABA)], files := [] }

/-- Room mixing a properly annotated turn with an empty-string thread id. -/
def roomMix : DisentanglementChatRoom := { room_id := "r", turns := [annTurn, turnEmptyThread] }

/-- Store holding `roomMix`. -/
def stMix : ServiceState := { rooms := [("r", roomMix)], files := [] }

/-- Over-approximation of "this operation explicitly assigns a `thread_id`
to some turn": true for every annotate call (it always writes `thread_id`,
even when the written value is `None`), and for every import whose source
carries any thread data at all (a JSON turn whose `thread_id` is present and
non-`None`, or a CSV row in which any probed thread column has a value).
An operation with `opAssignsThread = false` cannot, under any reading of
"explicitly assigned", assign a thread id. -/
def opAssignsThread : Op → Bool
  | .annotateOp .. => true
  | .deleteOp _ => false
  | .importOp _ _ src _ =>
    match src with
    | .jsonData ts => ts.any (fun t => t.thread_id.isSome)
    | .csvData _ rows =>
      rows.any (fun row => thread_column_variants.any (fun c => (dictGet c row).isSome))

/-- One direction of the claimed invariant, as the code actually maintains
it: whenever a turn's `thread_id` is truthy (present and non-empty), both
`annotator_id` and `annotation_timestamp` are populated. -/
def turnMetaOK (t : DisentangledTurn) : Bool :=
  !(strOptTruthy t.thread_id) ||
    (t.annotator_id.isSome && t.annotation_timestamp.isSome)

/-- `turnMetaOK` for every turn of every stored room. -/
def stateMetaOK (st : ServiceState) : Bool :=
  st.rooms.all (fun p => p.2.turns.all turnMetaOK)

/-- A JSON source turn carrying annotator metadata but no thread at all. -/
def metaTurn : DisentangledTurn :=
  { user_id := "u", turn_id := "t1", turn_text := "x",
    annotator_id := some "alice", annotation_timestamp := some 7 }

/-- A one-operation trace that never assigns any thread id. -/
def opsMeta : List Op := [.importOp "r.json" "json" (.jsonData [metaTurn]) 0]

/-! ## Association-list helper lemmas -/

theorem dictGet_dictInsert_self {α : Type _} (k : String) (v : α)
    (d : List (String × α)) : dictGet k (dictInsert k v d) = some v := by
  induction d with
  | nil => simp [dictInsert, dictGet]
  | cons p rest ih =>
    by_cases h : p.1 = k
    · simp [dictInsert, dictGet, h]
    · simp [dictInsert, dictGet, h, ih]

theorem dictGet_dictErase_self {α : Type _} (k : String) (d : List (String × α)) :
    dictGet k (dictErase k d) = none := by
  induction d with
  | nil => rfl
  | cons p rest ih =>
    by_cases h : p.1 = k
    · simpa [dictErase, dictGet, h] using ih
    · simpa [dictErase, dictGet, h] using ih

theorem dictErase_of_get_none {α : Type _} {k : String} {d : List (String × α)}
    (h : dictGet k d = none) : dictErase k d = d := by
  induction d with
  | nil => rfl
  | cons p rest ih =>
    by_cases hp : p.1 = k
    · simp [dictGet, hp] at h
    · simp only [dictGet, hp, if_false, if_neg hp] at h
      simp [dictErase, hp, List.filter] at ih ⊢
      exact ih h

theorem dictGet_mem {α : Type _} {k : String} {d : List (String × α)} {v : α}
    (h : dictGet k d = some v) : (k, v) ∈ d := by
  induction d with
  | nil => simp [dictGet] at h
  | cons p rest ih =>
    by_cases hp : p.1 = k
    · simp only [dictGet, hp, if_true, if_pos hp, Option.some.injEq] at h
      subst h; subst hp
      exact List.mem_cons_self _ _
    · simp only [dictGet, hp, if_false, if_neg hp] at h
      exact List.mem_cons_of_mem _ (ih h)

theorem dictGet_isSome_iff {α : Type _} (k : String) (d : List (String × α)) :
    (dictGet k d).isSome = true ↔ k ∈ d.map Prod.fst := by
  induction d with
  | nil => simp [dictGet]
  | cons p rest ih =>
    by_cases hp : p.1 = k
    · simp [dictGet, hp]
    · simp [dictGet, hp, ih, Ne.symm hp]

/-! ## C1: annotate overwrites all four annotation fields -/

theorem annotateFirst_split (turn_id annotator_id : String)
    (thread_id notes : Option String) (now : Nat)
    (pre post : List DisentangledTurn) (t : DisentangledTurn)
    (hpre : ∀ u ∈ pre, u.turn_id ≠ turn_id) (ht : t.turn_id = turn_id) :
    annotateFirst turn_id annotator_id thread_id notes now (pre ++ t :: post) =
      some (pre ++
        { t with
          thread_id := thread_id
          annotator_id := some annotator_id
          annotation_timestamp := some now
          annotation_notes := notes } :: post) := by
  induction pre with
  | nil => simp [annotateFirst, ht]
  | cons u rest ih =>
    have hu : u.turn_id ≠ turn_id := hpre u (List.mem_cons_self _ _)
    have hrec := ih (fun x hx => hpre x (List.mem_cons_of_mem _ hx))
    simp [annotateFirst, hu, hrec]

/-- C1. For every stored room containing a turn with the given `turn_id`
(located by its first occurrence), `annotate_turn` unconditionally overwrites
all four annotation fields of that turn — `thread_id` to the given optional
value, `annotator_id` to the given annotator, `annotation_timestamp` to the
current time, `annotation_notes` to the given optional notes (`none` clears
them) — persists the room to its backing file, and returns the new
timestamp. -/
theorem annotate_overwrites_all_fields (st : ServiceState)
    (room_id turn_id annotator_id : String) (thread_id notes : Option String)
    (now : Nat) (room : DisentanglementChatRoom)
    (pre post : List DisentangledTurn) (t : DisentangledTurn)
    (hroom : dictGet room_id st.rooms = some room)
    (hsplit : room.turns = pre ++ t :: post)
    (hpre : ∀ u ∈ pre, u.turn_id ≠ turn_id) (ht : t.turn_id = turn_id) :
    ∃ room2 : DisentanglementChatRoom,
      room2.room_id = room.room_id ∧
      room2.turns = pre ++
        { t with
          thread_id := thread_id
          annotator_id := some annotator_id
          annotation_timestamp := some now
          annotation_notes := notes } :: post ∧
      annotateTurn st room_id turn_id annotator_id thread_id notes now =
        .ok ({ rooms := dictInsert room_id room2 st.rooms
               files := saveRoom room2 st.files }, now) := by
  refine ⟨{ room with
    turns := pre ++
      { t with
        thread_id := thread_id
        annotator_id := some annotator_id
        annotation_timestamp := some now
        annotation_notes := notes } :: post }, rfl, rfl, ?_⟩
  have hfirst := annotateFirst_split turn_id annotator_id thread_id notes now
    pre post t hpre ht
  simp [annotateTurn, hroom, hsplit, hfirst]

/-- C1 witness: annotating the only turn of a one-turn room overwrites all
four annotation fields, persists, and returns the timestamp. -/
theorem annotate_overwrites_all_fields_w :
    ∃ room2 : DisentanglementChatRoom,
      room2.room_id = roomOne.room_id ∧
      room2.turns = [] ++
        { plainTurn with
          thread_id := some "T"
          annotator_id := some "alice"
          annotation_timestamp := some 42
          annotation_notes := some "good" } :: [] ∧
      annotateTurn stRoomOnly "r" "t1" "alice" (some "T") (some "good") 42 =
        .ok ({ rooms := dictInsert "r" room2 stRoomOnly.rooms
               files := saveRoom room2 stRoomOnly.files }, 42) :=
  annotate_overwrites_all_fields stRoomOnly "r" "t1" "alice" (some "T")
    (some "good") 42 roomOne [] [] plainTurn (by rfl) (by rfl) (by simp) (by rfl)

/-! ## C5: unrecognized format values -/

/-- C5 counterexample. The claim says `import` with a format value that is
neither `csv` nor `json` fails with `FormatError`; the code has no such
error: any non-`"csv"` format value falls into the `else` branch and is
processed as JSON, so importing with format `"xml"` succeeds. -/
theorem import_format_cex :
    ("xml" ≠ "csv") ∧ ("xml" ≠ "json") ∧
    importChatroom emptyState "f.xml" "xml" (.jsonData [plainTurn]) 3 =
      .ok ({ rooms := [("f", { room_id := "f", turns := [plainTurn] })]
             files := [("data/chatrooms/f.json",
               .jsonRoom { room_id := "f", turns := [plainTurn] })] },
           { message := "Successfully imported chat room f"
             total_turns := 1
             pre_annotated_turns := 0 }) := by
  refine ⟨by decide, by decide, ?_⟩
  rfl

/-- C5 amended. A format value other than `"csv"` is not rejected: the
operation behaves exactly as with format `"json"` (the service defines no
`FormatError`; only the HTTP schema layer constrains the format token). -/
theorem import_nondefault_format_json (st : ServiceState)
    (file_path format : String) (src : SourceData) (now : Nat)
    (h : format ≠ "csv") :
    importChatroom st file_path format src now =
      importChatroom st file_path "json" src now := by
  simp [importChatroom, importTurns, h]

/-- C5 witness: importing with format `"xml"` behaves as JSON import. -/
theorem import_nondefault_format_json_w :
    importChatroom emptyState "f.xml" "xml" (.jsonData [plainTurn]) 3 =
      importChatroom emptyState "f.xml" "json" (.jsonData [plainTurn]) 3 :=
  import_nondefault_format_json emptyState "f.xml" "xml"
    (.jsonData [plainTurn]) 3 (by decide)

/-! ## C6: import derives the room id, replaces, persists, and summarizes -/

/-- C6. On every successful import the room id is the source path's base name
without its extension; the new room fully replaces any room with the same id
in the mapping; the room is persisted; the summary reports the total turn
count and the count of turns carrying a thread assignment; and re-importing
the same file from any store state stores the identical room (no duplicated
or merged turns). -/
theorem import_replaces_and_summarizes (st : ServiceState)
    (file_path format : String) (src : SourceData) (now : Nat)
    (st2 : ServiceState) (res : ImportResult)
    (h : importChatroom st file_path format src now = .ok (st2, res)) :
    ∃ room : DisentanglementChatRoom,
      room.room_id = pathStem file_path ∧
      st2.rooms = dictInsert (pathStem file_path) room st.rooms ∧
      dictGet (pathStem file_path) st2.rooms = some room ∧
      st2.files = saveRoom room st.files ∧
      res.total_turns = room.turns.length ∧
      res.pre_annotated_turns = room.turns.countP (fun t => t.thread_id.isSome) ∧
      (∀ st3 st4 res2, importChatroom st3 file_path format src now = .ok (st4, res2) →
        dictGet (pathStem file_path) st4.rooms = some room ∧ res2 = res) := by
  cases hT : importTurns file_path format src now with
  | error e => simp [importChatroom, hT] at h
  | ok turns =>
    rw [importChatroom, hT] at h
    rw [Except.ok.injEq, Prod.mk.injEq] at h
    obtain ⟨h1, h2⟩ := h
    refine ⟨{ room_id := pathStem file_path, turns := turns }, rfl, ?_, ?_, ?_, ?_, ?_, ?_⟩
    · rw [← h1]
    · rw [← h1]; exact dictGet_dictInsert_self _ _ _
    · rw [← h1]
    · rw [← h2]
    · rw [← h2]
    · intro st3 st4 res2 h34
      rw [importChatroom, hT] at h34
      rw [Except.ok.injEq, Prod.mk.injEq] at h34
      obtain ⟨h3, h4⟩ := h34
      exact ⟨h3 ▸ dictGet_dictInsert_self _ _ _, by rw [← h4, ← h2]⟩

/-- C6 witness: a concrete JSON import into a store already holding a
two-turn room with the same id; the stored room is replaced wholesale. -/
theorem import_replaces_and_summarizes_w :
    ∃ room : DisentanglementChatRoom,
      room.room_id = pathStem "d/f.json" ∧
      stAfterImport.rooms = dictInsert (pathStem "d/f.json") room stTwoTurns.rooms ∧
      dictGet (pathStem "d/f.json") stAfterImport.rooms = some room ∧
      stAfterImport.files = saveRoom room stTwoTurns.files ∧
      resImportF.total_turns = room.turns.length ∧
      resImportF.pre_annotated_turns = room.turns.countP (fun t => t.thread_id.isSome) ∧
      (∀ st3 st4 res2,
        importChatroom st3 "d/f.json" "json" (.jsonData [plainTurn]) 5 = .ok (st4, res2) →
        dictGet (pathStem "d/f.json") st4.rooms = some room ∧ res2 = resImportF) :=
  import_replaces_and_summarizes stTwoTurns "d/f.json" "json"
    (.jsonData [plainTurn]) 5 stAfterImport resImportF (by rfl)

/-! ## C7: delete semantics -/

/-- C7. `delete` fails with not-found when the room is absent; on success it
removes the room from the mapping and removes the backing file (a missing
backing file is not an error — the store is left with the file mapping
unchanged), and a subsequent `get` on the deleted id fails with not-found. -/
theorem delete_semantics (st : ServiceState) (room_id : String) :
    (dictGet room_id st.rooms = none →
      deleteChatroom st room_id = .error (.notFound "Chat room not found")) ∧
    (∀ room, dictGet room_id st.rooms = some room →
      ∃ st2, deleteChatroom st room_id = .ok st2 ∧
        st2.rooms = dictErase room_id st.rooms ∧
        dictGet room_id st2.rooms = none ∧
        st2.files = dictErase (roomFilePath room_id) st.files ∧
        (dictGet (roomFilePath room_id) st.files = none → st2.files = st.files) ∧
        getChatroom st2 room_id = .error (.notFound "Chat room not found")) := by
  constructor
  · intro h; simp [deleteChatroom, h]
  · intro room h
    refine ⟨{ rooms := dictErase room_id st.rooms
              files := dictErase (roomFilePath room_id) st.files },
      by simp [deleteChatroom, h], rfl, dictGet_dictErase_self _ _, rfl,
      fun hf => dictErase_of_get_none hf, ?_⟩
    simp [getChatroom, dictGet_dictErase_self]

/-- C7 witness: deleting the one stored room (whose backing file is present)
removes both, and `get` then fails. -/
theorem delete_semantics_w :
    ∃ st2, deleteChatroom stRoomAndFile "r" = .ok st2 ∧
      st2.rooms = dictErase "r" stRoomAndFile.rooms ∧
      dictGet "r" st2.rooms = none ∧
      st2.files = dictErase (roomFilePath "r") stRoomAndFile.files ∧
      (dictGet (roomFilePath "r") stRoomAndFile.files = none →
        st2.files = stRoomAndFile.files) ∧
      getChatroom st2 "r" = .error (.notFound "Chat room not found") :=
  (delete_semantics stRoomAndFile "r").2 roomOne (by rfl)

/-! ## C8: export frame conditions -/

/-- C8. `export` leaves the room mapping (and hence every room record)
unchanged; resolves the destination to `<store-dir>/export_<room_id>.<format>`
when none is given and to the given destination otherwise; writes exactly one
file — for CSV with the fixed column order `user_id, turn_id, turn_text,
reply_to_turn, thread_id, annotator_id, annotation_timestamp,
annotation_notes` — and returns the resolved destination path. -/
theorem export_frame (st : ServiceState) (room_id format : String)
    (output_path : Option String) (room : DisentanglementChatRoom)
    (hroom : dictGet room_id st.rooms = some room) :
    ∃ st2 path, exportChatroom st room_id format output_path = .ok (st2, path) ∧
      st2.rooms = st.rooms ∧
      (output_path = none →
        path = "data/chatrooms/export_" ++ room_id ++ "." ++ format) ∧
      (∀ p, output_path = some p → path = p) ∧
      st2.files = dictInsert path
        (if format = "csv" then .csvFile csvFieldOrder (room.turns.map turnToCsvRow)
         else .jsonRoom room) st.files ∧
      (format = "csv" →
        dictGet path st2.files =
          some (.csvFile csvFieldOrder (room.turns.map turnToCsvRow))) := by
  cases output_path with
  | none =>
    refine ⟨{ st with files := dictInsert ("data/chatrooms/export_" ++ room_id ++ "." ++ format) (if format = "csv" then .csvFile csvFieldOrder (room.turns.map turnToCsvRow) else .jsonRoom room) st.files }, "data/chatrooms/export_" ++ room_id ++ "." ++ format, by simp [exportChatroom, hroom], rfl, fun _ => rfl, fun p hp => Option.noConfusion hp, rfl, ?_⟩
    intro hcsv
    simp only [hcsv, if_pos rfl]
    exact dictGet_dictInsert_self _ _ _
  | some q =>
    refine ⟨{ st with files := dictInsert q (if format = "csv" then .csvFile csvFieldOrder (room.turns.map turnToCsvRow) else .jsonRoom room) st.files }, q, by simp [exportChatroom, hroom], rfl, fun h => Option.noConfusion h, fun p hp => by cases hp; rfl, rfl, ?_⟩
    intro hcsv
    simp only [hcsv, if_pos rfl]
    exact dictGet_dictInsert_self _ _ _

/-- C8 witness: a default-destination CSV export of a one-turn room. -/
theorem export_frame_w :
    ∃ st2 path, exportChatroom stRoomOnly "r" "csv" none = .ok (st2, path) ∧
      st2.rooms = stRoomOnly.rooms ∧
      ((none : Option String) = none →
        path = "data/chatrooms/export_" ++ "r" ++ "." ++ "csv") ∧
      (∀ p, (none : Option String) = some p → path = p) ∧
      st2.files = dictInsert path
        (if "csv" = "csv" then .csvFile csvFieldOrder (roomOne.turns.map turnToCsvRow)
         else .jsonRoom roomOne) stRoomOnly.files ∧
      ("csv" = "csv" →
        dictGet path st2.files =
          some (.csvFile csvFieldOrder (roomOne.turns.map turnToCsvRow))) :=
  export_frame stRoomOnly "r" "csv" none roomOne (by rfl)

/-! ## C3: JSON export/import round trip -/

theorem pyOrStr_of_truthy {a : Option String} (b : String)
    (h : strOptTruthy a = true) : pyOrStr a b = a := by
  cases a with
  | none => simp [strOptTruthy] at h
  | some s =>
    simp only [strOptTruthy, Bool.not_eq_true', beq_eq_false_iff_ne, ne_eq] at h
    simp [pyOrStr, h]

theorem pyOrTime_of_isSome {a : Option Nat} (b : Nat)
    (h : a.isSome = true) : pyOrTime a b = a := by
  cases a with
  | none => simp at h
  | some t => rfl

theorem jsonTurnImport_id (p : String) (now : Nat) (t : DisentangledTurn)
    (h : turnRoundTrips t = true) : jsonTurnImport p now t = t := by
  rw [jsonTurnImport]
  cases htr : strOptTruthy t.thread_id with
  | false => simp
  | true =>
    rw [turnRoundTrips, htr] at h
    simp only [Bool.not_true, Bool.false_or, Bool.and_eq_true] at h
    obtain ⟨⟨h1, h2⟩, h3⟩ := h
    simp only [if_true]
    rw [pyOrStr_of_truthy _ h1, pyOrTime_of_isSome _ h2, pyOrStr_of_truthy _ h3]

theorem map_jsonTurnImport_id (p : String) (now : Nat)
    (ts : List DisentangledTurn) (h : ∀ t ∈ ts, turnRoundTrips t = true) :
    ts.map (jsonTurnImport p now) = ts := by
  induction ts with
  | nil => rfl
  | cons t rest ih =>
    rw [List.map_cons, jsonTurnImport_id p now t (h t (List.mem_cons_self _ _)),
      ih (fun x hx => h x (List.mem_cons_of_mem _ hx))]

/-- C3 counterexample. The claim says importing a JSON export of any room
yields the same turn list field-for-field. For a room whose turn was
annotated with a thread but no notes (reachable via `annotate` with
`notes = None`), the JSON import path fills `annotation_notes` with
`"Imported from <path>"`, so the round-tripped turn list differs. -/
theorem json_roundtrip_cex :
    exportChatroom stAnn "r1" "json" (some "out/r1.json") =
      .ok (stAnnExported, "out/r1.json") ∧
    dictGet "out/r1.json" stAnnExported.files = some (.jsonRoom roomAnn) ∧
    importChatroom stAnnExported "out/r1.json" "json" (.jsonData roomAnn.turns) 9 =
      .ok (stAnnImported,
        { message := "Successfully imported chat room r1", total_turns := 1,
          pre_annotated_turns := 1 }) ∧
    (dictGet "r1" stAnnImported.rooms).map (fun r => r.turns) = some [annTurnFilled] ∧
    [annTurnFilled] ≠ roomAnn.turns := by
  refine ⟨by rfl, by rfl, by rfl, by rfl, by decide⟩

/-- C3 amended. For every room in which every turn with a truthy `thread_id`
already has truthy `annotator_id`, an `annotation_timestamp`, and truthy
`annotation_notes`, importing a JSON export of that room stores a room whose
turn list equals the original's field-for-field (timestamps are abstract
ticks, so "modulo timestamp formatting" is exact equality here); without that
condition the import fills the falsy metadata fields in. -/
theorem json_roundtrip_preserves (st : ServiceState) (room_id p : String)
    (room : DisentanglementChatRoom) (hroom : dictGet room_id st.rooms = some room)
    (hfill : ∀ t ∈ room.turns, turnRoundTrips t = true) :
    ∃ st2, exportChatroom st room_id "json" (some p) = .ok (st2, p) ∧
      dictGet p st2.files = some (.jsonRoom room) ∧
      (∀ st3 now2, ∃ st4 res,
        importChatroom st3 p "json" (.jsonData room.turns) now2 = .ok (st4, res) ∧
        (dictGet (pathStem p) st4.rooms).map (fun r => r.turns) = some room.turns) := by
  refine ⟨{ st with files := dictInsert p (.jsonRoom room) st.files }, by simp [exportChatroom, hroom], dictGet_dictInsert_self _ _ _, ?_⟩
  intro st3 now2
  have hmap := map_jsonTurnImport_id p now2 room.turns hfill
  refine ⟨{ rooms := dictInsert (pathStem p) { room_id := pathStem p, turns := room.turns } st3.rooms, files := saveRoom { room_id := pathStem p, turns := room.turns } st3.files }, { message := "Successfully imported chat room " ++ pathStem p, total_turns := room.turns.length, pre_annotated_turns := room.turns.countP (fun t => t.thread_id.isSome) }, ?_, ?_⟩
  · simp [importChatroom, importTurns, hmap]
  · rw [dictGet_dictInsert_self]
    rfl

/-- C3 witness: a room whose turn carries full annotation metadata
round-trips unchanged through `out/r1.json`. -/
theorem json_roundtrip_preserves_w :
    ∃ st2, exportChatroom
        { rooms := [("r1", roomAnnFilled)], files := [] } "r1" "json"
        (some "out/r1.json") = .ok (st2, "out/r1.json") ∧
      dictGet "out/r1.json" st2.files = some (.jsonRoom roomAnnFilled) ∧
      (∀ st3 now2, ∃ st4 res,
        importChatroom st3 "out/r1.json" "json" (.jsonData roomAnnFilled.turns) now2 =
          .ok (st4, res) ∧
        (dictGet (pathStem "out/r1.json") st4.rooms).map (fun r => r.turns) =
          some roomAnnFilled.turns) :=
  json_roundtrip_preserves { rooms := [("r1", roomAnnFilled)], files := [] }
    "r1" "out/r1.json" roomAnnFilled (by rfl) (by decide)

/-! ## C4: CSV row import semantics -/

theorem csvTurns_get (p : String) (now : Nat) (col : Option String)
    (rows : List (List (String × String))) (ts : List DisentangledTurn)
    (h : csvTurns p now col rows = some ts) :
    ts.length = rows.length ∧
    ∀ i : Nat, ts[i]? = (rows[i]?).bind (csvRowToTurn p now col) := by
  induction rows generalizing ts with
  | nil =>
    rw [csvTurns] at h
    injection h with h
    subst h
    exact ⟨rfl, fun i => by simp⟩
  | cons row rest ih =>
    rw [csvTurns] at h
    cases h1 : csvRowToTurn p now col row with
    | none => rw [h1] at h; exact absurd h (by simp)
    | some t =>
      cases h2 : csvTurns p now col rest with
      | none => rw [h1, h2] at h; exact absurd h (by simp)
      | some ts2 =>
        rw [h1, h2] at h
        injection h with h
        subst h
        obtain ⟨ihl, ihg⟩ := ih ts2 h2
        refine ⟨by simp [ihl], ?_⟩
        intro i
        cases i with
        | zero => simp [h1]
        | succ n => simpa using ihg n

theorem csvRowToTurn_fields (p : String) (now : Nat) (colO : Option String)
    (row : List (String × String)) (turn : DisentangledTurn)
    (h : csvRowToTurn p now colO row = some turn) :
    turn.thread_id = rowThread colO row ∧
    turn.annotator_id =
      (if (rowThread colO row).isSome then some "imported" else none) ∧
    turn.annotation_timestamp =
      (if (rowThread colO row).isSome then some now else none) ∧
    turn.annotation_notes =
      (if (rowThread colO row).isSome then some ("Imported from " ++ p) else none) := by
  rw [csvRowToTurn] at h
  cases hu : dictGet "user_id" row with
  | none => rw [hu] at h; exact absurd h (by simp)
  | some u =>
    cases hti : dictGet "turn_id" row with
    | none => rw [hu, hti] at h; exact absurd h (by simp)
    | some ti =>
      cases htx : dictGet "turn_text" row with
      | none => rw [hu, hti, htx] at h; exact absurd h (by simp)
      | some tx =>
        rw [hu, hti, htx] at h
        injection h with h
        subst h
        exact ⟨rfl, rfl, rfl, rfl⟩

theorem rowThread_usable (col v : String) (row : List (String × String))
    (h1 : dictGet col row = some v) (h2 : v ≠ "")
    (h3 : pyLower (pyStrip v) ≠ "") (h4 : pyLower (pyStrip v) ≠ "none")
    (h5 : pyLower (pyStrip v) ≠ "null") :
    rowThread (some col) row = some (pyStrip v) := by
  simp [rowThread, h1, h2, h3, h4, h5]

theorem rowThread_unusable (colO : Option String) (row : List (String × String))
    (h : ∀ col v, colO = some col → dictGet col row = some v →
      v = "" ∨ pyLower (pyStrip v) = "" ∨ pyLower (pyStrip v) = "none" ∨
        pyLower (pyStrip v) = "null") :
    rowThread colO row = none := by
  cases colO with
  | none => rfl
  | some col =>
    cases hv : dictGet col row with
    | none => simp [rowThread, hv]
    | some v =>
      by_cases hve : v = ""
      · simp [rowThread, hv, hve]
      · rcases h col v rfl hv with h2 | h2 | h2 | h2
        · exact absurd h2 hve
        all_goals simp [rowThread, hv, hve, h2]

/-- C4 counterexample. The claim says a row whose thread column holds a
non-empty value other than (case-insensitively) `none`/`null` yields a turn
carrying that value as `thread_id` with the annotator metadata set. The row
value `" "` is non-empty and is not `none`/`null`, yet the code strips it to
the empty string and produces a turn whose four annotation fields are all
null. -/
theorem csv_import_claim_cex :
    (" " ≠ "") ∧ pyLower " " ≠ "none" ∧ pyLower " " ≠ "null" ∧
    findThreadColumn headersCsv = some "thread_id" ∧
    dictGet "thread_id" rowWS = some " " ∧
    importChatroom emptyState "d/r.csv" "csv" (.csvData headersCsv [rowWS]) 7 =
      .ok (stCsvWS,
        { message := "Successfully imported chat room r", total_turns := 1,
          pre_annotated_turns := 0 }) ∧
    (dictGet "r" stCsvWS.rooms).map (fun room => room.turns.map (fun t =>
        (t.thread_id, t.annotator_id, t.annotation_timestamp, t.annotation_notes))) =
      some [(none, none, none, none)] := by
  exact ⟨by decide, by decide, by decide, by rfl, by rfl, by rfl, by rfl⟩

/-- C4 amended. For every CSV row imported via `import(source, csv)`: if the
detected thread column holds a value that is non-empty and whose
whitespace-stripped form lowercases to something other than `""`, `"none"`
and `"null"`, the resulting turn has the *stripped* value as `thread_id`,
`annotator_id = "imported"`, `annotation_timestamp = now`, and
`annotation_notes` citing the source; otherwise (no detected column, no
value, or an unusable value) the resulting turn has all four annotation
fields null. -/
theorem csv_import_row_fields (st : ServiceState) (file_path : String)
    (headers : List String) (rows : List (List (String × String))) (now : Nat)
    (st2 : ServiceState) (res : ImportResult)
    (h : importChatroom st file_path "csv" (.csvData headers rows) now = .ok (st2, res)) :
    ∃ room, dictGet (pathStem file_path) st2.rooms = some room ∧
      room.turns.length = rows.length ∧
      (∀ (i : Nat) (row : List (String × String)) (turn : DisentangledTurn),
        rows[i]? = some row → room.turns[i]? = some turn →
        ((∀ col v, findThreadColumn headers = some col → dictGet col row = some v →
            v ≠ "" → pyLower (pyStrip v) ≠ "" → pyLower (pyStrip v) ≠ "none" →
            pyLower (pyStrip v) ≠ "null" →
            turn.thread_id = some (pyStrip v) ∧
            turn.annotator_id = some "imported" ∧
            turn.annotation_timestamp = some now ∧
            turn.annotation_notes = some ("Imported from " ++ file_path)) ∧
         ((∀ col v, findThreadColumn headers = some col → dictGet col row = some v →
            v = "" ∨ pyLower (pyStrip v) = "" ∨ pyLower (pyStrip v) = "none" ∨
              pyLower (pyStrip v) = "null") →
          turn.thread_id = none ∧ turn.annotator_id = none ∧
          turn.annotation_timestamp = none ∧ turn.annotation_notes = none))) := by
  rw [importChatroom, importTurns] at h
  rw [if_pos rfl] at h
  cases hc : csvTurns file_path now (findThreadColumn headers) rows with
  | none => rw [hc] at h; exact absurd h (by simp)
  | some ts =>
    rw [hc] at h
    rw [Except.ok.injEq, Prod.mk.injEq] at h
    obtain ⟨h1, h2⟩ := h
    obtain ⟨hlen, hget⟩ := csvTurns_get file_path now (findThreadColumn headers) rows ts hc
    refine ⟨{ room_id := pathStem file_path, turns := ts }, ?_, hlen, ?_⟩
    · rw [← h1]; exact dictGet_dictInsert_self _ _ _
    · intro i row turn hrow hturn
      have hg := hget i
      rw [hrow, hturn] at hg
      have hct : csvRowToTurn file_path now (findThreadColumn headers) row = some turn := by
        simpa using hg.symm
      obtain ⟨f1, f2, f3, f4⟩ := csvRowToTurn_fields _ _ _ _ _ hct
      constructor
      · intro col v hcol hv hv2 hv3 hv4 hv5
        have hrt : rowThread (findThreadColumn headers) row = some (pyStrip v) := by
          rw [hcol]; exact rowThread_usable col v row hv hv2 hv3 hv4 hv5
        rw [hrt] at f1 f2 f3 f4
        simp only [Option.isSome_some, if_true] at f2 f3 f4
        exact ⟨f1, f2, f3, f4⟩
      · intro hun
        have hrt : rowThread (findThreadColumn headers) row = none :=
          rowThread_unusable _ row hun
        rw [hrt] at f1 f2 f3 f4
        simp only [Option.isSome_none, Bool.false_eq_true, if_false] at f2 f3 f4
        exact ⟨f1, f2, f3, f4⟩

/-- C4 witness: importing one usable row (`" T1 "`) and one unusable row
(`" "`) from `d/r.csv` at time 7. -/
theorem csv_import_row_fields_w :
    ∃ room, dictGet (pathStem "d/r.csv") stCsvT1.rooms = some room ∧
      room.turns.length = [rowT1, rowWS].length ∧
      (∀ (i : Nat) (row : List (String × String)) (turn : DisentangledTurn),
        [rowT1, rowWS][i]? = some row → room.turns[i]? = some turn →
        ((∀ col v, findThreadColumn headersCsv = some col → dictGet col row = some v →
            v ≠ "" → pyLower (pyStrip v) ≠ "" → pyLower (pyStrip v) ≠ "none" →
            pyLower (pyStrip v) ≠ "null" →
            turn.thread_id = some (pyStrip v) ∧
            turn.annotator_id = some "imported" ∧
            turn.annotation_timestamp = some 7 ∧
            turn.annotation_notes = some ("Imported from " ++ "d/r.csv")) ∧
         ((∀ col v, findThreadColumn headersCsv = some col → dictGet col row = some v →
            v = "" ∨ pyLower (pyStrip v) = "" ∨ pyLower (pyStrip v) = "none" ∨
              pyLower (pyStrip v) = "null") →
          turn.thread_id = none ∧ turn.annotator_id = none ∧
          turn.annotation_timestamp = none ∧ turn.annotation_notes = none))) :=
  csv_import_row_fields emptyState "d/r.csv" headersCsv [rowT1, rowWS] 7 stCsvT1
    { message := "Successfully imported chat room r", total_turns := 2,
      pre_annotated_turns := 1 } (by rfl)

/-! ## C2 and C10: thread-summary grouping lemmas -/

theorem addToGroup_get (k v : String) (d : List (String × List String)) (s : String) :
    dictGet s (addToGroup k v d) =
      if s = k then some ((dictGet k d).getD [] ++ [v]) else dictGet s d := by
  induction d with
  | nil =>
    by_cases h : s = k
    · subst h; simp [addToGroup, dictGet]
    · have hks : ¬k = s := fun hh => h hh.symm
      simp [addToGroup, dictGet, h, hks]
  | cons p rest ih =>
    by_cases hp : p.1 = k
    · by_cases hs : s = k
      · subst hs; simp [addToGroup, dictGet, hp]
      · have hps : p.1 ≠ s := fun hh => hs (hh ▸ hp)
        have hks : ¬k = s := fun hh => hs hh.symm
        simp [addToGroup, dictGet, hp, hps, hs, hks]
    · by_cases hs : s = k
      · subst hs
        have hps : p.1 ≠ s := hp
        simp [addToGroup, dictGet, hp, hps, ih]
      · simp only [addToGroup, if_neg hp, dictGet]
        by_cases hps : p.1 = s
        · simp [hps, hs]
        · simp [hps, ih, hs]

theorem addToGroup_keys (k v : String) (d : List (String × List String)) :
    (addToGroup k v d).map Prod.fst =
      if (dictGet k d).isSome then d.map Prod.fst else d.map Prod.fst ++ [k] := by
  induction d with
  | nil => simp [addToGroup, dictGet]
  | cons p rest ih =>
    by_cases hp : p.1 = k
    · simp [addToGroup, dictGet, hp]
    · cases hk : (dictGet k rest).isSome <;>
        simp [addToGroup, dictGet, hp, ih, hk]

theorem buildThreadsAux_get_empty (turns : List DisentangledTurn) :
    ∀ acc : List (String × List String),
      dictGet "" (buildThreadsAux acc turns) = dictGet "" acc := by
  induction turns with
  | nil => intro acc; rfl
  | cons t rest ih =>
    intro acc
    rw [buildThreadsAux]
    cases htr : strOptTruthy t.thread_id
    · simp only [Bool.false_eq_true, if_false]
      exact ih acc
    · simp only [if_true]
      obtain ⟨k, hth, hk⟩ : ∃ k, t.thread_id = some k ∧ k ≠ "" := by
        cases hth : t.thread_id with
        | none => rw [hth] at htr; simp [strOptTruthy] at htr
        | some z =>
          rw [hth] at htr
          exact ⟨z, rfl, by simpa [strOptTruthy] using htr⟩
      rw [hth, Option.getD_some]
      rw [ih (addToGroup k t.turn_id acc), addToGroup_get,
        if_neg (fun hh : ("" : String) = k => hk hh.symm)]

theorem buildThreadsAux_get (turns : List DisentangledTurn) :
    ∀ (acc : List (String × List String)) (s : String), s ≠ "" →
    dictGet s (buildThreadsAux acc turns) =
      (match dictGet s acc with
       | some g => some (g ++ threadGroup s turns)
       | none =>
         if threadGroup s turns = [] then none else some (threadGroup s turns)) := by
  induction turns with
  | nil =>
    intro acc s _
    cases hacc : dictGet s acc <;> simp [buildThreadsAux, threadGroup, hacc]
  | cons t rest ih =>
    intro acc s hs
    rw [buildThreadsAux]
    cases htr : strOptTruthy t.thread_id
    · simp only [Bool.false_eq_true, if_false]
      have hgroup : threadGroup s (t :: rest) = threadGroup s rest := by
        cases hth : t.thread_id with
        | none => simp [threadGroup, hth]
        | some z =>
          rw [hth] at htr
          have hz : z = "" := by simpa [strOptTruthy] using htr
          subst hz
          have hzs : ¬(("" : String) = s) := fun hh => hs hh.symm
          simp [threadGroup, hth, hzs]
      rw [hgroup]
      exact ih acc s hs
    · simp only [if_true]
      obtain ⟨k, hth, hk⟩ : ∃ k, t.thread_id = some k ∧ k ≠ "" := by
        cases hth : t.thread_id with
        | none => rw [hth] at htr; simp [strOptTruthy] at htr
        | some z =>
          rw [hth] at htr
          exact ⟨z, rfl, by simpa [strOptTruthy] using htr⟩
      rw [hth, Option.getD_some]
      have hgroup : threadGroup s (t :: rest) =
          if s = k then t.turn_id :: threadGroup s rest else threadGroup s rest := by
        by_cases hsk : s = k
        · subst hsk; simp [threadGroup, hth]
        · have hks : ¬(k = s) := fun hh => hsk hh.symm
          simp [threadGroup, hth, hks, hsk]
      rw [ih (addToGroup k t.turn_id acc) s hs, addToGroup_get, hgroup]
      by_cases hsk : s = k
      · subst hsk
        simp only [if_pos rfl]
        cases hacc : dictGet s acc <;> simp [hacc]
      · simp only [if_neg hsk]

theorem buildThreadsAux_keys_nodup (turns : List DisentangledTurn) :
    ∀ acc : List (String × List String),
      (acc.map Prod.fst).Nodup → ((buildThreadsAux acc turns).map Prod.fst).Nodup := by
  induction turns with
  | nil => intro acc h; exact h
  | cons t rest ih =>
    intro acc h
    rw [buildThreadsAux]
    cases htr : strOptTruthy t.thread_id
    · simp only [Bool.false_eq_true, if_false]
      exact ih acc h
    · simp only [if_true]
      apply ih
      rw [addToGroup_keys]
      cases hk : (dictGet (t.thread_id.getD "") acc).isSome
      · simp only [Bool.false_eq_true, if_false]
        have hmem : (t.thread_id.getD "") ∉ acc.map Prod.fst := by
          intro hmem
          rw [← dictGet_isSome_iff] at hmem
          rw [hk] at hmem
          exact Bool.false_ne_true hmem
        simp [List.nodup_append, h, hmem]
      · simp only [if_true]
        exact h

theorem buildThreads_get (turns : List DisentangledTurn) (s : String) (hs : s ≠ "") :
    dictGet s (buildThreads turns) =
      if threadGroup s turns = [] then none else some (threadGroup s turns) :=
  buildThreadsAux_get turns [] s hs

theorem buildThreads_get_empty (turns : List DisentangledTurn) :
    dictGet "" (buildThreads turns) = none :=
  buildThreadsAux_get_empty turns []

theorem buildThreads_keys_nodup (turns : List DisentangledTurn) :
    ((buildThreads turns).map Prod.fst).Nodup :=
  buildThreadsAux_keys_nodup turns [] (by simp)

theorem threadGroup_ne_nil_iff (turns : List DisentangledTurn) (s : String) :
    threadGroup s turns ≠ [] ↔ ∃ t ∈ turns, t.thread_id = some s := by
  constructor
  · intro hg
    by_contra hno
    push_neg at hno
    apply hg
    simp only [threadGroup, List.map_eq_nil_iff, List.filter_eq_nil_iff]
    intro t htm
    simpa using hno t htm
  · rintro ⟨t, htm, hteq⟩ hnil
    simp only [threadGroup, List.map_eq_nil_iff, List.filter_eq_nil_iff] at hnil
    exact absurd hteq (by simpa using hnil t htm)

/-- C2 counterexample. The claim prescribes grouping every turn that has a
thread assignment, ignoring only unassigned turns. A stored turn whose
`thread_id` is the empty string has an assignment, and the claim's grouping
puts it in a (one-element) group with thread_count 1, but the code's truthy
test drops it: the summary reports thread_count 0 and no groups. -/
theorem thread_summary_claim_cex :
    turnEmptyThread.thread_id = some "" ∧
    roomEmptyThread.turns = [turnEmptyThread] ∧
    buildThreadsClaim roomEmptyThread.turns = [("", ["t1"])] ∧
    getThreadSummary stEmptyThread "r" =
      .ok { room_id := "r", thread_count := 0, threads := [] } := by
  exact ⟨rfl, rfl, by rfl, by rfl⟩

/-- C2 amended. `thread_summary` fails with not-found when the room is
absent. For every stored room it returns the room id, groups turn ids by
thread id in room order, and reports the number of distinct groups — but it
ignores both turns with no thread assignment and turns whose thread id is
the empty string (the code's truthiness test), not only unassigned ones. -/
theorem thread_summary_groups (st : ServiceState) (room_id : String) :
    (dictGet room_id st.rooms = none →
      getThreadSummary st room_id = .error (.notFound "Chat room not found")) ∧
    (∀ room, dictGet room_id st.rooms = some room →
      ∃ summary, getThreadSummary st room_id = .ok summary ∧
        summary.room_id = room_id ∧
        summary.thread_count = summary.threads.length ∧
        (summary.threads.map Prod.fst).Nodup ∧
        (∀ s : String, (dictGet s summary.threads).isSome = true ↔
          (s ≠ "" ∧ ∃ t ∈ room.turns, t.thread_id = some s)) ∧
        (∀ s g, dictGet s summary.threads = some g → g = threadGroup s room.turns)) := by
  constructor
  · intro habs
    simp [getThreadSummary, habs]
  intro room hroom
  refine ⟨{ room_id := room_id, thread_count := (buildThreads room.turns).length, threads := buildThreads room.turns }, by simp [getThreadSummary, hroom], rfl, rfl, buildThreads_keys_nodup room.turns, ?_, ?_⟩
  · intro s
    by_cases hs : s = ""
    · subst hs
      rw [buildThreads_get_empty]
      simp
    · rw [buildThreads_get room.turns s hs]
      by_cases hg : threadGroup s room.turns = []
      · rw [if_pos hg]
        simp only [Option.isSome_none, Bool.false_eq_true, false_iff]
        rintro ⟨-, hex⟩
        exact (threadGroup_ne_nil_iff room.turns s).mpr hex hg
      · rw [if_neg hg]
        simp only [Option.isSome_some, true_iff]
        exact ⟨hs, (threadGroup_ne_nil_iff room.turns s).mp hg⟩
  · intro s g hgv
    by_cases hs : s = ""
    · subst hs
      rw [buildThreads_get_empty] at hgv
      exact absurd hgv (by simp)
    · rw [buildThreads_get room.turns s hs] at hgv
      by_cases hg : threadGroup s room.turns = []
      · rw [if_pos hg] at hgv
        exact absurd hgv (by simp)
      · rw [if_neg hg] at hgv
        injection hgv with hgv
        exact hgv.symm

/-- C2 witness: the spec example `[(t1,A),(t2,B),(t3,A),(t4,None)]`. -/
theorem thread_summary_groups_w :
    ∃ summary, getThreadSummary stABA "r" = .ok summary ∧
      summary.room_id = "r" ∧
      summary.thread_count = summary.threads.length ∧
      (summary.threads.map Prod.fst).Nodup ∧
      (∀ s : String, (dictGet s summary.threads).isSome = true ↔
        (s ≠ "" ∧ ∃ t ∈ roomABA.turns, t.thread_id = some s)) ∧
      (∀ s g, dictGet s summary.threads = some g → g = threadGroup s roomABA.turns) :=
  (thread_summary_groups stABA "r").2 roomABA (by rfl)

/-- C10. For every stored room holding a turn whose `thread_id` is the empty
string: `list()` counts that turn among the annotated turns and counts `""`
among the distinct thread ids, while `thread_summary` has no group for `""`;
consequently the `list()` thread count exceeds the summary's thread count by
exactly one. -/
theorem empty_thread_list_vs_summary (st : ServiceState) (room_id : String)
    (room : DisentanglementChatRoom) (t0 : DisentangledTurn)
    (hroom : dictGet room_id st.rooms = some room)
    (ht : t0 ∈ room.turns) (hempty : t0.thread_id = some "") :
    roomSummary room_id room ∈ listChatrooms st ∧
    t0 ∈ room.turns.filter (fun t => t.thread_id.isSome) ∧
    (roomSummary room_id room).annotated_turns =
      (room.turns.filter (fun t => t.thread_id.isSome)).length ∧
    "" ∈ (room.turns.filterMap (fun t => t.thread_id)).dedup ∧
    (∃ summary, getThreadSummary st room_id = .ok summary ∧
      dictGet "" summary.threads = none ∧
      (roomSummary room_id room).thread_count = summary.thread_count + 1) := by
  refine ⟨List.mem_map_of_mem _ (dictGet_mem hroom),
    List.mem_filter.mpr ⟨ht, by rw [hempty]; rfl⟩, rfl,
    List.mem_dedup.mpr (List.mem_filterMap.mpr ⟨t0, ht, hempty⟩), ?_⟩
  refine ⟨{ room_id := room_id, thread_count := (buildThreads room.turns).length, threads := buildThreads room.turns }, by simp [getThreadSummary, hroom], buildThreads_get_empty room.turns, ?_⟩
  have hperm : List.Perm ((room.turns.filterMap (fun t : DisentangledTurn => t.thread_id)).dedup)
      ("" :: (buildThreads room.turns).map Prod.fst) := by
    refine (List.perm_ext_iff_of_nodup (List.nodup_dedup _) ?_).mpr ?_
    · refine List.nodup_cons.mpr ⟨?_, buildThreads_keys_nodup room.turns⟩
      intro hmem
      rw [← dictGet_isSome_iff, buildThreads_get_empty] at hmem
      simp at hmem
    · intro s
      rw [List.mem_dedup, List.mem_filterMap]
      constructor
      · rintro ⟨t, htm, hteq⟩
        by_cases hs : s = ""
        · subst hs; exact List.mem_cons_self _ _
        · refine List.mem_cons_of_mem _ ?_
          rw [← dictGet_isSome_iff, buildThreads_get room.turns s hs,
            if_neg ((threadGroup_ne_nil_iff room.turns s).mpr ⟨t, htm, hteq⟩)]
          rfl
      · intro hmem
        rcases List.mem_cons.mp hmem with hs | hmem2
        · subst hs; exact ⟨t0, ht, hempty⟩
        · rw [← dictGet_isSome_iff] at hmem2
          by_cases hs : s = ""
          · subst hs
            rw [buildThreads_get_empty] at hmem2
            simp at hmem2
          · rw [buildThreads_get room.turns s hs] at hmem2
            by_cases hg : threadGroup s room.turns = []
            · rw [if_pos hg] at hmem2; simp at hmem2
            · exact (threadGroup_ne_nil_iff room.turns s).mp hg
  have hlen := hperm.length_eq
  simp only [List.length_cons, List.length_map] at hlen
  show ((room.turns.filterMap (fun t : DisentangledTurn => t.thread_id)).dedup).length =
    (buildThreads room.turns).length + 1
  rw [hlen]

/-- C10 witness: a room holding a `T`-annotated turn and an empty-string
turn: `list()` reports 2 threads, the summary reports 1. -/
theorem empty_thread_list_vs_summary_w :
    roomSummary "r" roomMix ∈ listChatrooms stMix ∧
    turnEmptyThread ∈ roomMix.turns.filter (fun t => t.thread_id.isSome) ∧
    (roomSummary "r" roomMix).annotated_turns =
      (roomMix.turns.filter (fun t => t.thread_id.isSome)).length ∧
    "" ∈ (roomMix.turns.filterMap (fun t => t.thread_id)).dedup ∧
    (∃ summary, getThreadSummary stMix "r" = .ok summary ∧
      dictGet "" summary.threads = none ∧
      (roomSummary "r" roomMix).thread_count = summary.thread_count + 1) :=
  empty_thread_list_vs_summary stMix "r" roomMix turnEmptyThread (by rfl)
    (by simp [roomMix]) (by rfl)

/-! ## C9: annotation-metadata invariant over reachable states -/

theorem pyOrStr_isSome (a : Option String) (b : String) :
    (pyOrStr a b).isSome = true := by
  cases a with
  | none => rfl
  | some s => rw [pyOrStr]; by_cases h : s = "" <;> simp [h]

theorem pyOrTime_isSome (a : Option Nat) (b : Nat) :
    (pyOrTime a b).isSome = true := by
  cases a <;> rfl

theorem all_dictInsert {α : Type _} (f : String × α → Bool) (k : String) (v : α)
    (d : List (String × α)) (hd : d.all f = true) (hv : f (k, v) = true) :
    (dictInsert k v d).all f = true := by
  induction d with
  | nil => simp [dictInsert, hv]
  | cons p rest ih =>
    rw [List.all_cons, Bool.and_eq_true] at hd
    by_cases hp : p.1 = k
    · simp [dictInsert, hp, hv, hd.2]
    · simp [dictInsert, hp, hd.1, ih hd.2]

theorem all_dictErase {α : Type _} (f : String × α → Bool) (k : String)
    (d : List (String × α)) (hd : d.all f = true) :
    (dictErase k d).all f = true := by
  rw [List.all_eq_true] at hd ⊢
  intro p hp
  exact hd p (List.mem_of_mem_filter hp)

theorem csvRowToTurn_metaOK (p : String) (now : Nat) (col : Option String)
    (row : List (String × String)) (t : DisentangledTurn)
    (h : csvRowToTurn p now col row = some t) : turnMetaOK t = true := by
  obtain ⟨f1, f2, f3, -⟩ := csvRowToTurn_fields p now col row t h
  cases hr : rowThread col row with
  | none => rw [hr] at f1; simp [turnMetaOK, f1, strOptTruthy]
  | some z =>
    rw [hr] at f1 f2 f3
    simp only [Option.isSome_some, if_true] at f2 f3
    simp [turnMetaOK, f2, f3]

theorem csvTurns_metaOK (p : String) (now : Nat) (col : Option String)
    (rows : List (List (String × String))) (ts : List DisentangledTurn)
    (h : csvTurns p now col rows = some ts) : ts.all turnMetaOK = true := by
  induction rows generalizing ts with
  | nil => rw [csvTurns] at h; injection h with h; subst h; rfl
  | cons row rest ih =>
    rw [csvTurns] at h
    cases h1 : csvRowToTurn p now col row with
    | none => rw [h1] at h; exact absurd h (by simp)
    | some t =>
      cases h2 : csvTurns p now col rest with
      | none => rw [h1, h2] at h; exact absurd h (by simp)
      | some ts2 =>
        rw [h1, h2] at h
        injection h with h
        subst h
        rw [List.all_cons, Bool.and_eq_true]
        exact ⟨csvRowToTurn_metaOK p now col row t h1, ih ts2 h2⟩

theorem jsonTurnImport_metaOK (p : String) (now : Nat) (t : DisentangledTurn) :
    turnMetaOK (jsonTurnImport p now t) = true := by
  rw [jsonTurnImport]
  cases htr : strOptTruthy t.thread_id
  · simp [turnMetaOK, htr]
  · simp [turnMetaOK, pyOrStr_isSome, pyOrTime_isSome]

theorem importTurns_metaOK (p fmt : String) (src : SourceData) (now : Nat)
    (ts : List DisentangledTurn) (h : importTurns p fmt src now = .ok ts) :
    ts.all turnMetaOK = true := by
  by_cases hf : fmt = "csv"
  · subst hf
    cases src with
    | jsonData ts2 => exact absurd h (by simp [importTurns])
    | csvData headers rows =>
      cases hc : csvTurns p now (findThreadColumn headers) rows with
      | none =>
        rw [show importTurns p "csv" (.csvData headers rows) now =
          (match csvTurns p now (findThreadColumn headers) rows with
           | some l => Except.ok l
           | none => Except.error ServiceError.parseError) from rfl, hc] at h
        exact absurd h (by simp)
      | some ts2 =>
        rw [show importTurns p "csv" (.csvData headers rows) now =
          (match csvTurns p now (findThreadColumn headers) rows with
           | some l => Except.ok l
           | none => Except.error ServiceError.parseError) from rfl, hc] at h
        injection h with h
        subst h
        exact csvTurns_metaOK p now (findThreadColumn headers) rows ts2 hc
  · cases src with
    | csvData headers rows =>
      rw [importTurns, if_neg hf] at h
      exact absurd h (by simp)
    | jsonData ts2 =>
      rw [importTurns, if_neg hf] at h
      injection h with h
      subst h
      rw [List.all_eq_true]
      intro t htm
      rw [List.mem_map] at htm
      obtain ⟨t0, -, rfl⟩ := htm
      exact jsonTurnImport_metaOK p now t0

theorem annotateFirst_metaOK (turn_id annotator_id : String)
    (thread_id notes : Option String) (now : Nat)
    (turns turns2 : List DisentangledTurn) (h : turns.all turnMetaOK = true)
    (ha : annotateFirst turn_id annotator_id thread_id notes now turns = some turns2) :
    turns2.all turnMetaOK = true := by
  induction turns generalizing turns2 with
  | nil => rw [annotateFirst] at ha; exact absurd ha (by simp)
  | cons t rest ih =>
    rw [annotateFirst] at ha
    rw [List.all_cons, Bool.and_eq_true] at h
    by_cases hm : t.turn_id = turn_id
    · rw [if_pos hm] at ha
      injection ha with ha
      subst ha
      rw [List.all_cons, Bool.and_eq_true]
      exact ⟨by simp [turnMetaOK], h.2⟩
    · rw [if_neg hm] at ha
      cases hr : annotateFirst turn_id annotator_id thread_id notes now rest with
      | none => rw [hr] at ha; exact absurd ha (by simp)
      | some rest2 =>
        rw [hr] at ha
        injection ha with ha
        subst ha
        rw [List.all_cons, Bool.and_eq_true]
        exact ⟨h.1, ih rest2 h.2 hr⟩

theorem stepOp_metaOK (st : ServiceState) (op : Op)
    (h : stateMetaOK st = true) : stateMetaOK (stepOp st op) = true := by
  cases op with
  | importOp p f s n =>
    rw [stepOp]
    cases hi : importChatroom st p f s n with
    | error e => exact h
    | ok pr =>
      obtain ⟨st2, res⟩ := pr
      cases hT : importTurns p f s n with
      | error e => rw [importChatroom, hT] at hi; exact absurd hi (by simp)
      | ok ts =>
        rw [importChatroom, hT] at hi
        rw [Except.ok.injEq, Prod.mk.injEq] at hi
        obtain ⟨h1, -⟩ := hi
        rw [stateMetaOK, ← h1]
        exact all_dictInsert _ _ _ _ h (importTurns_metaOK p f s n ts hT)
  | annotateOp r tid aid th no n =>
    rw [stepOp]
    cases hi : annotateTurn st r tid aid th no n with
    | error e => exact h
    | ok pr =>
      obtain ⟨st2, ts⟩ := pr
      rw [annotateTurn] at hi
      split at hi
      · exact absurd hi (by simp)
      · rename_i room hg
        split at hi
        · rename_i turns2 ha
          rw [Except.ok.injEq, Prod.mk.injEq] at hi
          obtain ⟨h1, -⟩ := hi
          rw [stateMetaOK, ← h1]
          have hroomOK : room.turns.all turnMetaOK = true := by
            have hmem := dictGet_mem hg
            rw [stateMetaOK, List.all_eq_true] at h
            exact h (r, room) hmem
          exact all_dictInsert _ _ _ _ h (annotateFirst_metaOK tid aid th no n
            room.turns turns2 hroomOK ha)
        · exact absurd hi (by simp)
  | deleteOp r =>
    rw [stepOp]
    cases hd : deleteChatroom st r with
    | error e => exact h
    | ok st2 =>
      rw [deleteChatroom] at hd
      split at hd
      · exact absurd hd (by simp)
      · injection hd with hd
        rw [stateMetaOK, ← hd]
        exact all_dictErase _ _ _ h

theorem runOps_metaOK (ops : List Op) :
    ∀ st : ServiceState, stateMetaOK st = true →
      stateMetaOK (runOps st ops) = true := by
  induction ops with
  | nil => intro st h; exact h
  | cons op rest ih =>
    intro st h
    rw [runOps, List.foldl_cons]
    exact ih (stepOp st op) (stepOp_metaOK st op h)

/-- C9 counterexample. The claim's "only if" direction says populated
`annotator_id`/`annotation_timestamp` imply the turn's `thread_id` was at
some point explicitly assigned. The one-operation trace `opsMeta` — a
JSON import whose only source turn has no `thread_id` at all — assigns no thread
under any reading (`opAssignsThread` is false for its operation, and there is
no annotate call), yet the reachable state it produces stores a turn with
both `annotator_id` and `annotation_timestamp` populated. -/
theorem ann_meta_iff_cex :
    (opsMeta.all (fun o => !(opAssignsThread o))) = true ∧
    runOps emptyState opsMeta =
      { rooms := [("r", { room_id := "r", turns := [metaTurn] })]
        files := [("data/chatrooms/r.json",
          .jsonRoom { room_id := "r", turns := [metaTurn] })] } ∧
    metaTurn.thread_id = none ∧
    metaTurn.annotator_id.isSome = true ∧
    metaTurn.annotation_timestamp.isSome = true := by
  exact ⟨by rfl, by rfl, rfl, rfl, rfl⟩

/-- C9 amended. In every state reachable from the empty store by any
sequence of import, annotate, and delete operations, every stored turn whose
`thread_id` is populated and non-empty has `annotator_id` and
`annotation_timestamp` populated. The converse direction of the claimed
`iff` does not hold: a JSON import can populate the metadata fields of a
turn whose thread was never assigned. -/
theorem ann_meta_invariant (ops : List Op) :
    stateMetaOK (runOps emptyState ops) = true :=
  runOps_metaOK ops emptyState (by rfl)

end AnnTool
